import Mathlib

/-!
Shallow embedding of the enginz web-server telemetry/logging core
(enginz.go, errorlog.go, the router/access-log file) and proofs of the
specified properties.

Go strings and byte slices are modelled as `List Nat` with every element
below 256; Go `int`/`int64` are modelled as `Int` (with explicit 64-bit
wraparound where an accumulator could overflow); channels are modelled as
bounded queues (`List`), a nil channel as `none`; external effects
(file writes, reports to the `Reporter`, the wall clock) are modelled as
explicit event lists or abstract parameters.
-/

namespace Enginz

/-- Bytes of an ASCII Lean string, used to write Go string literals. -/
def bs (s : String) : List Nat := s.data.map Char.toNat

/-- from access-log source, `shouldEscape`:
a byte is escaped if it is space, double-quote, percent,
or `c <= ' ' || c >= 127`. -/
def shouldEscape (c : Nat) : Bool :=
  if c = 32 || c = 34 || c = 37 then true
  else if c ≤ 32 || 127 ≤ c then true
  else false

/-- the Go string `"0123456789ABCDEF"` indexed by `logEscape`. -/
def upperHexTable : List Nat := bs "0123456789ABCDEF"

/-- `"0123456789ABCDEF"[n]` -/
def hexDigit (n : Nat) : Nat := upperHexTable.getD n 0

/-- the three bytes `logEscape` emits for an escaped byte `c`:
`'%'`, table `[c>>4]`, table `[c&15]`. -/
def escTriple (c : Nat) : List Nat := [37, hexDigit (c / 16), hexDigit (c % 16)]

/-- per-byte output of the copying loop of `logEscape`. -/
def escByte (c : Nat) : List Nat :=
  if shouldEscape c then escTriple c else [c]

/-- from access-log source, `logEscape`: count the escapable bytes;
if none, return the input unchanged, otherwise build the escaped copy. -/
def logEscape (s : List Nat) : List Nat :=
  let hexCount := (s.filter (fun c => shouldEscape c)).length
  if hexCount = 0 then s
  else s.flatMap escByte

/-- numeric value of an uppercase-hex-digit byte. -/
def hexVal (d : Nat) : Nat :=
  if 48 ≤ d ∧ d ≤ 57 then d - 48
  else if 65 ≤ d ∧ d ≤ 70 then d - 55
  else 0

/-- a byte is an uppercase hexadecimal digit (`0-9`, `A-F`). -/
def isUpperHexDigit (d : Nat) : Bool :=
  (48 ≤ d && d ≤ 57) || (65 ≤ d && d ≤ 70)

/-- structure of a properly escaped byte string: a concatenation of
blocks, each either a single non-escapable byte or a `%XX` triplet
whose two digit bytes are uppercase hex digits. -/
inductive Escaped : List Nat → Prop
  | nil : Escaped []
  | plain (c : Nat) (rest : List Nat) (hc : shouldEscape c = false)
      (hr : Escaped rest) : Escaped (c :: rest)
  | triple (d1 d2 : Nat) (rest : List Nat)
      (h1 : isUpperHexDigit d1 = true) (h2 : isUpperHexDigit d2 = true)
      (hr : Escaped rest) : Escaped (37 :: d1 :: d2 :: rest)

/-! ## Request data, response-writer wrapper, ServeHTTP -/

/-- 64-bit signed wraparound, modelling Go `int64` accumulation. -/
def wrap64 (x : Int) : Int := (x + 2 ^ 63) % 2 ^ 64 - 2 ^ 63

/-- the parts of `*http.Request` the package reads. `referer` and
`userAgent` model `header.Get "Referer"` / `header.Get "User-Agent"`,
with `[]` for an absent header. -/
structure Request where
  remoteAddr : List Nat := []
  host : List Nat := []
  method : List Nat := []
  requestURI : List Nat := []
  referer : List Nat := []
  userAgent : List Nat := []
  deriving DecidableEq

/-- the `Collect` record of enginz.go; `req = none` models a nil `Req`
pointer (the reserved rotation signal). -/
structure Collect where
  req : Option Request := none
  size : Int := 0
  status : Int := 0
  usec : Int := 0
  deriving DecidableEq

/-- state of the `responseWriter` wrapper (enginz.go): cumulative size
and last explicitly set status, both zero-initialised. -/
structure RespWriter where
  size : Int := 0
  status : Int := 0
  deriving DecidableEq

/-- one call a handler makes on the wrapped response writer. -/
inductive HOp
  | write (b : List Nat)
  | writeHeader (s : Int)
  deriving DecidableEq

/-- `responseWriter.Write` / `responseWriter.WriteHeader` from the
access-log source: `Write` adds `int64(len(b))` to `size` (64-bit
addition), `WriteHeader` records the status. -/
def rwStep (w : RespWriter) : HOp → RespWriter
  | .write b => { w with size := wrap64 (w.size + b.length) }
  | .writeHeader s => { w with status := s }

/-- the effect on the wrapper of a handler performing `ops` in order. -/
def rwRun (ops : List HOp) (w : RespWriter) : RespWriter := ops.foldl rwStep w

/-- sizes of the `Write` calls among `ops`. -/
def writeSizes (ops : List HOp) : List Int :=
  ops.filterMap fun o => match o with
    | .write b => some (b.length : Int)
    | .writeHeader _ => none

/-- values of the `WriteHeader` calls among `ops`. -/
def headerVals (ops : List HOp) : List Int :=
  ops.filterMap fun o => match o with
    | .write _ => none
    | .writeHeader s => some s

/-- observable behaviour of a handler on one request: the writer calls it
performs, and whether it then panics. -/
structure HandlerBeh where
  ops : List HOp := []
  panics : Bool := false
  deriving DecidableEq

/-- calls made on the `Reporter` interface. Each constructor is one
`Problem`/`Fatal` call site of the sources, with its arguments. -/
inductive ReportEv
  | problemPanic (remoteAddr uri stack : List Nat)
  | problemPanicPanic (remoteAddr uri : List Nat)
  | problemOpenFail (path : List Nat)
  | fatalOpenFail (path : List Nat)
  deriving DecidableEq

/-- the server configuration fields `ServeHTTP`/`serverError` read.
`error500 = some b` means an `Error500` handler is configured and behaves
as `b`; `hasCollect` means a stats `Collect` callback is configured. -/
structure ServerCfg where
  serverID : List Nat := bs "enginZ!"
  traceID : List Nat := []
  error500 : Option HandlerBeh := none
  hasCollect : Bool := false
  deriving DecidableEq

/-- the body written by the default 500 branch of `serverError`. -/
def default500Body : List Nat := bs "Something has gone horribly, horribly, wrong.\n"

/-- the raw-writer calls the body of `serverError` makes and whether that
body panics: the configured `Error500` handler if present, otherwise
`WriteHeader(500)` plus the default plain-text body. -/
def serverErrorBody (cfg : ServerCfg) : List HOp × Bool :=
  match cfg.error500 with
  | some b => (b.ops, b.panics)
  | none => ([.writeHeader 500, .write default500Body], false)

/-- result of `serverError`: calls on the raw writer, reports emitted,
and whether a panic escapes it. -/
structure ErrOut where
  wOps : List HOp
  reports : List ReportEv
  panics : Bool
  deriving DecidableEq

/-- `serverError` from enginz.go. Its deferred `recover` turns a panic of
the body into a `"PANIC in PANIC handler!"` Problem report followed by a
bare `WriteHeader(500)` on the raw writer; the recovery branch itself
performs only those two external calls, so no panic escapes. -/
def serverError (cfg : ServerCfg) (req : Request) : ErrOut :=
  let body := serverErrorBody cfg
  if body.2 then
    { wOps := body.1 ++ [.writeHeader 500],
      reports := [.problemPanicPanic req.remoteAddr req.requestURI],
      panics := false }
  else
    { wOps := body.1, reports := [], panics := false }

/-- observable result of one `ServeHTTP` call: the `header.Set` calls,
the handler's calls through the counting wrapper (`lwOps`), the calls the
panic path makes on the raw writer (`wOps`), the reports, the records
passed to `s.log` (`submitted`) and to `s.Collect` (`collected`), and
whether a panic escapes to the caller. -/
structure HTTPOut where
  headerSets : List (List Nat × List Nat)
  lwOps : List HOp
  wOps : List HOp
  reports : List ReportEv
  submitted : List Collect
  collected : List Collect
  panics : Bool
  deriving DecidableEq

/-- `ServeHTTP` from enginz.go. `usec` is the externally measured elapsed
time `int(dt.Nanoseconds()/1000)` and `stack` the `debug.Stack()` bytes.
If the handler panics, the deferred `recover` reports a `PANIC!` Problem
with remote address, request target and stack, then runs `serverError`;
the statements after the handler call (record build, `s.log`, the
collector call) are skipped by the unwinding. Otherwise the record is
built from the wrapper state (status defaulting to 200) and handed to
`s.log` and, when configured, to the collector. -/
def serveHTTP (cfg : ServerCfg) (req : Request) (beh : HandlerBeh)
    (usec : Int) (stack : List Nat) : HTTPOut :=
  let hdrs :=
    (if cfg.serverID ≠ [] then [(bs "Server", cfg.serverID)] else []) ++
    (if cfg.traceID ≠ [] then [(bs "X-Origin-Id", cfg.traceID)] else [])
  if beh.panics then
    let e := serverError cfg req
    { headerSets := hdrs, lwOps := beh.ops, wOps := e.wOps,
      reports := .problemPanic req.remoteAddr req.requestURI stack :: e.reports,
      submitted := [], collected := [], panics := e.panics }
  else
    let lw := rwRun beh.ops {}
    let st := if lw.status = 0 then 200 else lw.status
    let c : Collect := { req := some req, size := lw.size, status := st, usec := usec }
    { headerSets := hdrs, lwOps := beh.ops, wOps := [],
      reports := [], submitted := [c],
      collected := if cfg.hasCollect then [c] else [], panics := false }

/-! ## Access-log queue (`log` / `logger`) -/

/-- channel capacity `logQueueSize` from enginz.go. -/
def logQueueSize : Nat := 1000

/-- the non-blocking `select { case s.logch <- c: default: }` of `log`:
enqueue when the buffered channel has room, otherwise drop the record. -/
def logSubmit (q : List Collect) (c : Collect) : List Collect :=
  if q.length < logQueueSize then q ++ [c] else q

/-- an interleaving event on the access-log queue: a producer calling
`log` or the consumer goroutine receiving one item. -/
inductive QEvent
  | submit (c : Collect)
  | consume
  deriving DecidableEq

/-- queue contents plus the records the consumer has taken (each of which
it writes as one line, in order). -/
structure QState where
  queue : List Collect := []
  written : List Collect := []
  deriving DecidableEq

/-- one step of the producer/consumer interleaving. A `consume` on an
empty queue is a no-op (the consumer blocks on the channel). -/
def qStep (st : QState) : QEvent → QState
  | .submit c => { st with queue := logSubmit st.queue c }
  | .consume =>
    match st.queue with
    | [] => st
    | c :: rest => { queue := rest, written := st.written ++ [c] }

/-- run a trace of queue events. -/
def qRun (evs : List QEvent) (st : QState) : QState := evs.foldl qStep st

/-- the records submitted along a trace, in order. -/
def submittedOf : List QEvent → List Collect
  | [] => []
  | .submit c :: r => c :: submittedOf r
  | .consume :: r => submittedOf r

/-- every submission in the trace happens while the queue is below
capacity (no record is dropped). -/
def noDropsFrom (st : QState) : List QEvent → Bool
  | [] => true
  | e :: r =>
    (match e with
     | .submit _ => decide (st.queue.length < logQueueSize)
     | .consume => true) && noDropsFrom (qStep st e) r

/-! ## Access-log line format and the consumer loop body -/

/-- single space byte. -/
def sp : List Nat := [32]
/-- double-quote byte. -/
def dq : List Nat := [34]
/-- the `"-"` placeholder for an absent header. -/
def dash : List Nat := [45]

/-- decimal ASCII rendering of a natural number. -/
def natDec (n : Nat) : List Nat := (Nat.toDigits 10 n).map Char.toNat

/-- `fmt` `%d` rendering of an integer. -/
def intDec (i : Int) : List Nat :=
  if i < 0 then 45 :: natDec i.natAbs else natDec i.natAbs

/-- `writeLog` from the access-log source: one formatted line for record
`msg`, whose `Req` is `req`; `now` is the formatted local timestamp
(`time.Now().Format("2006-01-02T15:04:05")`, external). -/
def writeLog (now : List Nat) (req : Request) (msg : Collect) : List Nat :=
  let rfr := if req.referer = [] then dash else req.referer
  let ua := if req.userAgent = [] then dash else req.userAgent
  req.remoteAddr ++ bs " - " ++ now ++ sp ++ req.host ++ sp ++
  intDec msg.status ++ sp ++ intDec msg.size ++ sp ++ intDec msg.usec ++ sp ++
  req.method ++ sp ++ dq ++ req.requestURI ++ dq ++ sp ++
  dq ++ logEscape rfr ++ dq ++ sp ++ dq ++ logEscape ua ++ dq ++ bs "\n"

/-- consumer-side state of `logger`: the current file handle and the
handles closed so far (handles are abstract identifiers). -/
structure LoggerSt where
  handle : Nat
  closed : List Nat := []
  deriving DecidableEq

/-- externally visible effect of one `logger` loop iteration. -/
inductive LogFx
  | wrote (h : Nat) (line : List Nat)
  | report (r : ReportEv)
  deriving DecidableEq

/-- body of `logger`'s receive case (access-log source) for one dequeued
message. A message with `req = none` is the rotation signal: `os.OpenFile`
is attempted (outcome `openResult`); on failure a Problem is reported and
the old handle kept, on success the old handle is closed and replaced. A
normal message is written as one line to the current handle. -/
def loggerStep (path : List Nat) (openResult : Option Nat) (now : List Nat)
    (st : LoggerSt) (msg : Collect) : LoggerSt × List LogFx :=
  match msg.req with
  | none =>
    match openResult with
    | none => (st, [.report (.problemOpenFail path)])
    | some wx => ({ handle := wx, closed := st.closed ++ [st.handle] }, [])
  | some req => (st, [.wrote st.handle (writeLog now req msg)])

/-! ## Error-log writer (`errlogger`, `Error`, `engWrite.Write`) -/

/-- a primitive file operation performed by `errlogger`. -/
inductive FileAct
  | openA (h : Nat)
  | writeA (h : Nat) (content : List Nat)
  | closeA (h : Nat)
  deriving DecidableEq

/-- body of `errlogger` (errorlog.go) for one received message:
when a path is configured, open the file (outcome `openResult`); on
failure report a Problem and drop the message, on success write
`"%s %s"` of the timestamp and the raw message, then close. -/
def errlogStep (errorLog : List Nat) (openResult : Option Nat)
    (now msg : List Nat) : List FileAct × List ReportEv :=
  if errorLog = [] then ([], [])
  else
    match openResult with
    | none => ([], [.problemOpenFail errorLog])
    | some w => ([.openA w, .writeA w (now ++ sp ++ msg), .closeA w], [])

/-- the `errlogger` loop over a sequence of received messages, each with
its own open outcome and timestamp. -/
def errlogRun (errorLog : List Nat) :
    List (Option Nat × List Nat × List Nat) → List FileAct × List ReportEv
  | [] => ([], [])
  | (o, now, msg) :: rest =>
    let s := errlogStep errorLog o now msg
    let r := errlogRun errorLog rest
    (s.1 ++ r.1, s.2 ++ r.2)

/-- outcome of one call to `Server.Error` (errorlog.go): either the call
returns `(ret, err)` leaving the error channel as `errch`, or it is
blocked on a full channel send. -/
inductive CallOut
  | done (ret : Nat) (err : Option (List Nat)) (errch : Option (List (List Nat)))
  | blocked
  deriving DecidableEq

/-- `Server.Error` from errorlog.go: when `errch` is nil the message is
discarded; otherwise `s.errch <- string(b)` is a plain (blocking) send on
a buffered channel — it enqueues when there is room and blocks when the
buffer is full. On completion the call returns `(len(b), nil)`. The
optional `s.Log.Verbose` mirror is an external sink and not modelled. -/
def Error (errch : Option (List (List Nat))) (b : List Nat) : CallOut :=
  match errch with
  | none => .done b.length none none
  | some q =>
    if q.length < logQueueSize then .done b.length none (some (q ++ [b]))
    else .blocked

/-- `engWrite.Write` from errorlog.go: delegates to `Server.Error`. -/
def engWrite (errch : Option (List (List Nat))) (b : List Nat) : CallOut :=
  Error errch b

/-! ## Lifecycle: channel creation and `Shutdown` -/

/-- a Go runtime panic relevant to this model. -/
inductive GoPanic
  | closeOfNilChannel
  deriving DecidableEq

/-- Go `close(ch)`: panics when the channel is nil. -/
def goClose {α : Type} : Option α → Except GoPanic Unit
  | none => .error .closeOfNilChannel
  | some _ => .ok ()

/-- the two writer channels of `Server`; `none` is a nil channel (never
created). -/
structure ServerChans where
  logch : Option (List Collect) := none
  errch : Option (List (List Nat)) := none
  deriving DecidableEq

/-- `newAccessLogger` (access-log source): returns without creating the
channel when `AccessLog` is empty, otherwise makes the buffered channel. -/
def newAccessLoggerCh (accessLog : List Nat) : Option (List Collect) :=
  if accessLog = [] then none else some []

/-- `newErrorLogger` (errorlog.go): returns without creating the channel
when `ErrorLog` is empty, otherwise makes the buffered channel. -/
def newErrorLoggerCh (errorLog : List Nat) : Option (List (List Nat)) :=
  if errorLog = [] then none else some []

/-- channel state after `Serve` has initialised both loggers. -/
def serveChans (accessLog errorLog : List Nat) : ServerChans :=
  { logch := newAccessLoggerCh accessLog, errch := newErrorLoggerCh errorLog }

/-- `Shutdown` from enginz.go: unconditionally `close(s.logch)` then
`close(s.errch)`, then gracefully stop each listener (external). -/
def Shutdown (s : ServerChans) : Except GoPanic Unit := do
  let _ ← goClose s.logch
  let _ ← goClose s.errch
  pure ()

/-! # Theorems -/

lemma hexDigit_isUpper (n : Nat) (h : n < 16) : isUpperHexDigit (hexDigit n) = true := by
  interval_cases n <;> decide

lemma hexDigit_not_escape (n : Nat) (h : n < 16) : shouldEscape (hexDigit n) = false := by
  interval_cases n <;> decide

lemma hexVal_hexDigit (n : Nat) (h : n < 16) : hexVal (hexDigit n) = n := by
  interval_cases n <;> decide

/-- with no escapable byte, the per-byte encoding is the identity. -/
lemma flatMap_escByte_id (s : List Nat)
    (h : ∀ c ∈ s, shouldEscape c = false) : s.flatMap escByte = s := by
  induction s with
  | nil => rfl
  | cons c rest ih =>
    have hc : shouldEscape c = false := h c (List.mem_cons_self c rest)
    have hr : ∀ x ∈ rest, shouldEscape x = false := fun x hx => h x (List.mem_cons_of_mem _ hx)
    simp [List.flatMap_cons, escByte, hc, ih hr]

/-- `logEscape` always equals the per-byte flat map. -/
lemma logEscape_eq_flatMap (s : List Nat) : logEscape s = s.flatMap escByte := by
  unfold logEscape
  by_cases h : (s.filter (fun c => shouldEscape c)).length = 0
  · have hall : ∀ c ∈ s, shouldEscape c = false := by
      intro c hc
      by_contra hne
      have : c ∈ s.filter (fun c => shouldEscape c) := by
        simp [List.mem_filter, hc, Bool.of_not_eq_false hne]
      rw [List.length_eq_zero] at h
      simp [h] at this
    simp [h, flatMap_escByte_id s hall]
  · simp [h]

/-- the flat map of per-byte encodings is structurally well-escaped. -/
lemma escaped_flatMap (s : List Nat) (hb : ∀ c ∈ s, c < 256) :
    Escaped (s.flatMap escByte) := by
  induction s with
  | nil => exact Escaped.nil
  | cons c rest ih =>
    have hc : c < 256 := hb c (List.mem_cons_self c rest)
    have hr : Escaped (rest.flatMap escByte) :=
      ih (fun x hx => hb x (List.mem_cons_of_mem _ hx))
    rw [List.flatMap_cons]
    unfold escByte
    by_cases he : shouldEscape c = true
    · have h1 : c / 16 < 16 := Nat.div_lt_of_lt_mul (by omega)
      have h2 : c % 16 < 16 := Nat.mod_lt _ (by omega)
      simp only [he, if_true, escTriple]
      exact Escaped.triple _ _ _ (hexDigit_isUpper _ h1) (hexDigit_isUpper _ h2) hr
    · simp only [Bool.not_eq_true] at he
      simp only [he, Bool.false_eq_true, if_false]
      exact Escaped.plain c _ he hr

/-- a byte is escaped exactly when it is space, quote, percent, a control
byte, or non-ASCII. -/
lemma shouldEscape_iff (c : Nat) :
    shouldEscape c = true ↔ (c = 32 ∨ c = 34 ∨ c = 37 ∨ c ≤ 32 ∨ 127 ≤ c) := by
  unfold shouldEscape
  split_ifs with h1 h2 <;> simp_all
  omega

/-- with no escapable byte, `logEscape` returns its input unchanged. -/
lemma logEscape_of_no_escape (s : List Nat)
    (h : ∀ c ∈ s, shouldEscape c = false) : logEscape s = s := by
  unfold logEscape
  have hz : (s.filter fun c => shouldEscape c) = [] := by
    rw [List.filter_eq_nil_iff]
    intro c hc
    simp [h c hc]
  simp [hz]

/-- C4: `logEscape` maps each escapable byte (space, quote, percent, or a
byte ≤ 0x20 / ≥ 0x7F) to `%` plus the two uppercase hex digits of its
value, passes every other byte through in order, yields a string made
only of non-escapable bytes and `%XX` triplets, and is the identity on
inputs with no escapable byte. -/
theorem logEscape_correct (s : List Nat) (hb : ∀ c ∈ s, c < 256) :
    logEscape s =
      s.flatMap (fun c => if shouldEscape c then [37, hexDigit (c / 16), hexDigit (c % 16)] else [c]) ∧
    (∀ c, shouldEscape c = true ↔ (c = 32 ∨ c = 34 ∨ c = 37 ∨ c ≤ 32 ∨ 127 ≤ c)) ∧
    (∀ c ∈ s, shouldEscape c = true →
       isUpperHexDigit (hexDigit (c / 16)) = true ∧
       isUpperHexDigit (hexDigit (c % 16)) = true ∧
       hexVal (hexDigit (c / 16)) * 16 + hexVal (hexDigit (c % 16)) = c) ∧
    Escaped (logEscape s) ∧
    ((∀ c ∈ s, shouldEscape c = false) → logEscape s = s) := by
  refine ⟨?_, shouldEscape_iff, ?_, ?_, logEscape_of_no_escape s⟩
  · rw [logEscape_eq_flatMap]
    exact List.flatMap_congr (fun c _ => by simp [escByte, escTriple])
  · intro c hc _
    have h256 : c < 256 := hb c hc
    have h1 : c / 16 < 16 := Nat.div_lt_of_lt_mul (by omega)
    have h2 : c % 16 < 16 := Nat.mod_lt _ (by omega)
    refine ⟨hexDigit_isUpper _ h1, hexDigit_isUpper _ h2, ?_⟩
    rw [hexVal_hexDigit _ h1, hexVal_hexDigit _ h2]
    omega
  · rw [logEscape_eq_flatMap]
    exact escaped_flatMap s hb

/-- C4 witness: `logEscape` on `"a b"` (bytes `[97, 32, 98]`) and on the
escape-free `"ab"` (bytes `[97, 98]`). -/
theorem logEscape_correct_witness :
    Escaped (logEscape [97, 32, 98]) ∧ logEscape [97, 98] = [97, 98] :=
  ⟨(logEscape_correct [97, 32, 98] (by decide)).2.2.2.1,
   (logEscape_correct [97, 98] (by decide)).2.2.2.2 (by decide)⟩

/-! ### Response-writer accumulation -/

lemma wrap64_id (x : Int) (h0 : 0 ≤ x) (h1 : x < 2 ^ 63) : wrap64 x = x := by
  unfold wrap64
  rw [show (2 : Int) ^ 63 = 9223372036854775808 by norm_num,
      show (2 : Int) ^ 64 = 18446744073709551616 by norm_num] at *
  omega

lemma rwRun_cons (o : HOp) (r : List HOp) (w : RespWriter) :
    rwRun (o :: r) w = rwRun r (rwStep w o) := rfl

lemma writeSizes_nonneg (ops : List HOp) : 0 ≤ (writeSizes ops).sum := by
  induction ops with
  | nil => simp [writeSizes]
  | cons o r ih =>
    cases o with
    | write b =>
      simp only [writeSizes, List.filterMap_cons] at *
      simp only [List.sum_cons]
      positivity
    | writeHeader s =>
      simpa [writeSizes, List.filterMap_cons] using ih

lemma rwRun_size (ops : List HOp) : ∀ w : RespWriter, 0 ≤ w.size →
    w.size + (writeSizes ops).sum < 2 ^ 63 →
    (rwRun ops w).size = w.size + (writeSizes ops).sum := by
  induction ops with
  | nil => intro w _ _; simp [rwRun, writeSizes]
  | cons o r ih =>
    intro w h0 h1
    cases o with
    | write b =>
      have hv : writeSizes (.write b :: r) = (b.length : Int) :: writeSizes r := by
        simp [writeSizes, List.filterMap_cons]
      rw [hv, List.sum_cons] at h1 ⊢
      have hnn := writeSizes_nonneg r
      have hlen : (0 : Int) ≤ (b.length : Int) := by positivity
      have hw : wrap64 (w.size + b.length) = w.size + b.length :=
        wrap64_id _ (by omega) (by omega)
      rw [rwRun_cons]
      have := ih { w with size := wrap64 (w.size + b.length) }
      simp only [rwStep] at *
      rw [this (by rw [hw]; omega) (by rw [hw]; omega), hw]
      ring
    | writeHeader s =>
      have hv : writeSizes (.writeHeader s :: r) = writeSizes r := by
        simp [writeSizes, List.filterMap_cons]
      rw [hv] at h1 ⊢
      rw [rwRun_cons]
      exact ih { w with status := s } h0 h1

lemma rwRun_status (ops : List HOp) : ∀ w : RespWriter,
    (rwRun ops w).status = (headerVals ops).getLastD w.status := by
  induction ops with
  | nil => intro w; simp [rwRun, headerVals]
  | cons o r ih =>
    intro w
    cases o with
    | write b =>
      have hv : headerVals (.write b :: r) = headerVals r := by
        simp [headerVals, List.filterMap_cons]
      rw [hv, rwRun_cons]
      exact ih { w with size := wrap64 (w.size + b.length) }
    | writeHeader s =>
      have hv : headerVals (.writeHeader s :: r) = s :: headerVals r := by
        simp [headerVals, List.filterMap_cons]
      rw [hv, rwRun_cons, List.getLastD_cons]
      exact ih { w with status := s }

/-! ### C1, C2, C5: the instrumented wrapper -/

/-- C1: when the handler panics, `ServeHTTP` emits the `PANIC!` Problem
report (remote address, request target, stack) first; with no `Error500`
the substitute response is status 500 plus the default body; a configured
non-panicking `Error500` produces its own response; a panicking `Error500`
triggers the second-level containment: a distinct `PANIC in PANIC
handler!` report and a bare `WriteHeader(500)`. For every handler
behaviour the panic never escapes `ServeHTTP`. -/
theorem serveHTTP_panic_containment (cfg : ServerCfg) (req : Request)
    (beh : HandlerBeh) (usec : Int) (stack : List Nat)
    (hp : beh.panics = true) :
    (serveHTTP cfg req beh usec stack).reports.head? =
      some (.problemPanic req.remoteAddr req.requestURI stack) ∧
    (cfg.error500 = none →
      (serveHTTP cfg req beh usec stack).reports =
        [.problemPanic req.remoteAddr req.requestURI stack] ∧
      (serveHTTP cfg req beh usec stack).wOps =
        [.writeHeader 500, .write default500Body]) ∧
    (∀ b, cfg.error500 = some b → b.panics = false →
      (serveHTTP cfg req beh usec stack).reports =
        [.problemPanic req.remoteAddr req.requestURI stack] ∧
      (serveHTTP cfg req beh usec stack).wOps = b.ops) ∧
    (∀ b, cfg.error500 = some b → b.panics = true →
      (serveHTTP cfg req beh usec stack).reports =
        [.problemPanic req.remoteAddr req.requestURI stack,
         .problemPanicPanic req.remoteAddr req.requestURI] ∧
      (serveHTTP cfg req beh usec stack).wOps = b.ops ++ [.writeHeader 500]) ∧
    (∀ beh' : HandlerBeh, (serveHTTP cfg req beh' usec stack).panics = false) := by
  refine ⟨?_, ?_, ?_, ?_, ?_⟩
  · simp [serveHTTP, hp]
  · intro h5
    simp [serveHTTP, hp, serverError, serverErrorBody, h5]
  · intro b hb hbp
    simp [serveHTTP, hp, serverError, serverErrorBody, hb, hbp]
  · intro b hb hbp
    simp [serveHTTP, hp, serverError, serverErrorBody, hb, hbp]
  · intro beh'
    by_cases hb' : beh'.panics <;>
      simp [serveHTTP, hb', serverError, apply_ite]

/-- C1 witness: a panicking handler under the default configuration. -/
theorem serveHTTP_panic_containment_witness :
    ({ ops := [], panics := true } : HandlerBeh).panics = true ∧
    (serveHTTP {} { remoteAddr := [49], requestURI := [47] }
        { ops := [], panics := true } 0 [88]).reports =
      [.problemPanic [49] [47] [88]] ∧
    (serveHTTP {} { remoteAddr := [49], requestURI := [47] }
        { ops := [], panics := true } 0 [88]).wOps =
      [.writeHeader 500, .write default500Body] :=
  ⟨rfl,
   (serveHTTP_panic_containment {} { remoteAddr := [49], requestURI := [47] }
      { ops := [], panics := true } 0 [88] rfl).2.1 rfl⟩

/-- C2 counterexample: a request whose handler panics produces no
`Collect` record at all — nothing reaches `s.log` and nothing reaches the
configured collector, refuting "exactly one record is built and
forwarded" for panicking handlers. -/
theorem serveHTTP_panic_no_record :
    (serveHTTP { hasCollect := true } {} { ops := [], panics := true } 3 []).submitted.length = 0 ∧
    (serveHTTP { hasCollect := true } {} { ops := [], panics := true } 3 []).collected.length = 0 := by
  constructor <;> rfl

/-- C2 amended: for every request whose handler completes without
panicking, exactly one `Collect` record — carrying the request, the
accumulated size, the (defaulted) status and the elapsed microseconds —
is built and passed to `s.log` (the access-log submit path), and the
configured collector is invoked synchronously with that same record
(with no collector configured, no collector call happens); a panicking
handler produces none. -/
theorem serveHTTP_record_on_normal_return (cfg : ServerCfg) (req : Request)
    (ops : List HOp) (usec : Int) (stack : List Nat) :
    (serveHTTP cfg req { ops := ops, panics := false } usec stack).submitted =
      [{ req := some req, size := (rwRun ops {}).size,
         status := if (rwRun ops {}).status = 0 then 200 else (rwRun ops {}).status,
         usec := usec }] ∧
    (serveHTTP cfg req { ops := ops, panics := false } usec stack).collected =
      (if cfg.hasCollect then
        (serveHTTP cfg req { ops := ops, panics := false } usec stack).submitted
       else []) ∧
    (serveHTTP cfg req { ops := ops, panics := true } usec stack).submitted = [] := by
  refine ⟨by simp [serveHTTP], ?_, by simp [serveHTTP]⟩
  by_cases hc : cfg.hasCollect <;> simp [serveHTTP, hc]

/-- C5: for a handler that returns normally, the built record's size is
the exact sum of the write sizes (as long as it fits in `int64`); with no
explicit `WriteHeader` the status is 200, and otherwise it is the value
of the last `WriteHeader` call (any nonzero status — zero is not a value
the underlying `net/http` writer would accept). -/
theorem record_size_status (cfg : ServerCfg) (req : Request) (ops : List HOp)
    (usec : Int) (stack : List Nat) (c : Collect)
    (hc : (serveHTTP cfg req { ops := ops, panics := false } usec stack).submitted = [c]) :
    ((writeSizes ops).sum < 2 ^ 63 → c.size = (writeSizes ops).sum) ∧
    (headerVals ops = [] → c.status = 200) ∧
    (∀ pre h, headerVals ops = pre ++ [h] → h ≠ 0 → c.status = h) := by
  simp only [serveHTTP, if_false, Bool.false_eq_true, List.cons.injEq, and_true] at hc
  refine ⟨?_, ?_, ?_⟩
  · intro hfit
    rw [← hc]
    simpa using rwRun_size ops {} (by simp) (by simpa using hfit)
  · intro hnone
    rw [← hc]
    have hst := rwRun_status ops {}
    rw [hnone] at hst
    simp only [List.getLastD] at hst
    simp [hst]
  · intro pre h hlast hne
    rw [← hc]
    have hst := rwRun_status ops {}
    rw [hlast, List.getLastD_concat] at hst
    simp [hst, hne]

/-- C5 witness: three writes of sizes 3, 0 and 2 with an explicit 404. -/
theorem record_size_status_witness :
    ((writeSizes [.write [1, 2, 3], .writeHeader 404, .write [], .write [4, 5]]).sum < 2 ^ 63) ∧
    (⟨some {}, 5, 404, 7⟩ : Collect).size =
      (writeSizes [.write [1, 2, 3], .writeHeader 404, .write [], .write [4, 5]]).sum ∧
    (⟨some {}, 5, 404, 7⟩ : Collect).status = 404 :=
  ⟨by decide,
   (record_size_status {} {} [.write [1, 2, 3], .writeHeader 404, .write [], .write [4, 5]]
      7 [] ⟨some {}, 5, 404, 7⟩ (by decide)).1 (by decide),
   (record_size_status {} {} [.write [1, 2, 3], .writeHeader 404, .write [], .write [4, 5]]
      7 [] ⟨some {}, 5, 404, 7⟩ (by decide)).2.2 [] 404 (by decide) (by decide)⟩

/-! ### C3: access-log queue -/

lemma qRun_cons (e : QEvent) (r : List QEvent) (st : QState) :
    qRun (e :: r) st = qRun r (qStep st e) := rfl

lemma qRun_sublist (evs : List QEvent) : ∀ st : QState,
    ((qRun evs st).written ++ (qRun evs st).queue).Sublist
      (st.written ++ st.queue ++ submittedOf evs) := by
  induction evs with
  | nil =>
    intro st
    simp [qRun, submittedOf]
  | cons e r ih =>
    intro st
    rw [qRun_cons]
    refine (ih (qStep st e)).trans ?_
    cases e with
    | submit c =>
      simp only [qStep, submittedOf, logSubmit]
      by_cases hlt : st.queue.length < logQueueSize
      · simp [hlt, List.append_assoc]
      · simp only [hlt, if_false]
        rw [List.append_assoc, List.append_assoc]
        exact ((List.sublist_cons_self c (submittedOf r)).append_left _).append_left _
    | consume =>
      simp only [qStep, submittedOf]
      cases hq : st.queue with
      | nil => simp [hq]
      | cons c rest => simp [hq, List.append_assoc]

lemma qRun_noDrops (evs : List QEvent) : ∀ st : QState, noDropsFrom st evs = true →
    (qRun evs st).written ++ (qRun evs st).queue =
      st.written ++ st.queue ++ submittedOf evs := by
  induction evs with
  | nil =>
    intro st _
    simp [qRun, submittedOf]
  | cons e r ih =>
    intro st hnd
    unfold noDropsFrom at hnd
    rw [Bool.and_eq_true] at hnd
    obtain ⟨he, hr⟩ := hnd
    rw [qRun_cons, ih (qStep st e) hr]
    cases e with
    | submit c =>
      simp only [decide_eq_true_eq] at he
      simp [qStep, logSubmit, he, submittedOf, List.append_assoc]
    | consume =>
      cases hq : st.queue with
      | nil => simp [qStep, hq, submittedOf]
      | cons c rest => simp [qStep, hq, submittedOf, List.append_assoc]

/-- C3: `log`'s submit never blocks — below capacity (1000) the record is
appended, at capacity the queue is unchanged (the record is silently
dropped); along any producer/consumer interleaving the consumer's output
is an order-preserving subsequence of the submissions, and when every
submission happens below capacity the output plus the still-queued tail
is exactly the submission sequence in FIFO order. -/
theorem logSubmit_fifo (q : List Collect) (c : Collect) (evs : List QEvent) :
    (q.length < logQueueSize → logSubmit q c = q ++ [c]) ∧
    (logQueueSize ≤ q.length → logSubmit q c = q) ∧
    ((qRun evs ⟨[], []⟩).written.Sublist (submittedOf evs)) ∧
    (noDropsFrom ⟨[], []⟩ evs = true →
      (qRun evs ⟨[], []⟩).written ++ (qRun evs ⟨[], []⟩).queue = submittedOf evs) := by
  refine ⟨?_, ?_, ?_, ?_⟩
  · intro h
    simp [logSubmit, h]
  · intro h
    simp [logSubmit, Nat.not_lt.mpr h]
  · have hs := qRun_sublist evs ⟨[], []⟩
    simp only [List.nil_append] at hs
    exact (List.sublist_append_left _ _).trans hs
  · intro h
    have hs := qRun_noDrops evs ⟨[], []⟩ h
    simpa using hs

/-- C3 witness: a short trace with no drops replays in FIFO order, and a
submit onto a full queue of 1000 records leaves it unchanged. -/
theorem logSubmit_fifo_witness :
    noDropsFrom ⟨[], []⟩
      [.submit ⟨none, 1, 0, 0⟩, .submit ⟨none, 2, 0, 0⟩, .consume,
       .submit ⟨none, 3, 0, 0⟩, .consume, .consume] = true ∧
    (qRun [.submit ⟨none, 1, 0, 0⟩, .submit ⟨none, 2, 0, 0⟩, .consume,
           .submit ⟨none, 3, 0, 0⟩, .consume, .consume] ⟨[], []⟩).written ++
      (qRun [.submit ⟨none, 1, 0, 0⟩, .submit ⟨none, 2, 0, 0⟩, .consume,
             .submit ⟨none, 3, 0, 0⟩, .consume, .consume] ⟨[], []⟩).queue =
      submittedOf [.submit ⟨none, 1, 0, 0⟩, .submit ⟨none, 2, 0, 0⟩, .consume,
                   .submit ⟨none, 3, 0, 0⟩, .consume, .consume] ∧
    logQueueSize ≤ (List.replicate logQueueSize (⟨none, 0, 0, 0⟩ : Collect)).length ∧
    logSubmit (List.replicate logQueueSize ⟨none, 0, 0, 0⟩) ⟨none, 9, 0, 0⟩ =
      List.replicate logQueueSize ⟨none, 0, 0, 0⟩ :=
  ⟨by decide,
   (logSubmit_fifo [] ⟨none, 0, 0, 0⟩
      [.submit ⟨none, 1, 0, 0⟩, .submit ⟨none, 2, 0, 0⟩, .consume,
       .submit ⟨none, 3, 0, 0⟩, .consume, .consume]).2.2.2 (by decide),
   by simp,
   (logSubmit_fifo (List.replicate logQueueSize ⟨none, 0, 0, 0⟩) ⟨none, 9, 0, 0⟩ []).2.1
     (by simp)⟩

/-! ### C6: access-log line format -/

/-- C6: `writeLog` produces exactly one line `<remote-addr> - <timestamp>
<host> <status> <bytes> <micros> <method> "<uri>" "<referer>"
"<user-agent>"` with single-space separators and a trailing newline; the
referer and user-agent fields are the percent-escaped header values, `-`
when the header is absent, always inside double quotes, while the URI is
quoted raw (not passed through `logEscape`); and `-` itself is untouched
by the escaping codec. -/
theorem writeLog_format (now : List Nat) (req : Request) (msg : Collect) :
    writeLog now req msg =
      req.remoteAddr ++ sp ++ dash ++ sp ++ now ++ sp ++ req.host ++ sp ++
      intDec msg.status ++ sp ++ intDec msg.size ++ sp ++ intDec msg.usec ++ sp ++
      req.method ++ sp ++
      (dq ++ req.requestURI ++ dq) ++ sp ++
      (dq ++ logEscape (if req.referer = [] then dash else req.referer) ++ dq) ++ sp ++
      (dq ++ logEscape (if req.userAgent = [] then dash else req.userAgent) ++ dq) ++
      [10] ∧
    logEscape dash = dash := by
  constructor
  · unfold writeLog
    rw [show bs " - " = sp ++ dash ++ sp from by decide,
        show bs "\n" = [10] from rfl]
    simp [List.append_assoc]
  · decide

/-! ### C7: log rotation in the consumer loop -/

/-- C7: a dequeued rotation signal (`Req == nil`) writes no log line; if
the reopen succeeds the old handle is closed and replaced, so subsequent
records are written to the new handle; if it fails a (non-fatal) Problem
is reported, the state is unchanged, and subsequent records keep going to
the old handle. -/
theorem loggerStep_rotation (path : List Nat) (openResult : Option Nat)
    (now : List Nat) (st : LoggerSt) (msg : Collect) (hrot : msg.req = none) :
    (∀ h line, LogFx.wrote h line ∉ (loggerStep path openResult now st msg).2) ∧
    (∀ wx, openResult = some wx →
      loggerStep path openResult now st msg =
        ({ handle := wx, closed := st.closed ++ [st.handle] }, []) ∧
      (∀ o2 now2 msg2 req2, msg2.req = some req2 →
        (loggerStep path o2 now2 { handle := wx, closed := st.closed ++ [st.handle] } msg2).2 =
          [.wrote wx (writeLog now2 req2 msg2)])) ∧
    (openResult = none →
      loggerStep path openResult now st msg = (st, [.report (.problemOpenFail path)]) ∧
      (∀ o2 now2 msg2 req2, msg2.req = some req2 →
        (loggerStep path o2 now2 st msg2).2 =
          [.wrote st.handle (writeLog now2 req2 msg2)])) := by
  refine ⟨?_, ?_, ?_⟩
  · intro h line
    cases ho : openResult <;> simp [loggerStep, hrot, ho]
  · intro wx hwx
    refine ⟨by simp [loggerStep, hrot, hwx], ?_⟩
    intro o2 now2 msg2 req2 h2
    simp [loggerStep, h2]
  · intro hn
    refine ⟨by simp [loggerStep, hrot, hn], ?_⟩
    intro o2 now2 msg2 req2 h2
    simp [loggerStep, h2]

/-- C7 witness: one rotation signal with a successful reopen (handle 1 to
handle 2) and one with a failed reopen. -/
theorem loggerStep_rotation_witness :
    loggerStep [112] (some 2) [] ⟨1, []⟩ ⟨none, 0, 0, 0⟩ =
      ({ handle := 2, closed := [1] }, []) ∧
    loggerStep [112] none [] ⟨1, []⟩ ⟨none, 0, 0, 0⟩ =
      (⟨1, []⟩, [.report (.problemOpenFail [112])]) :=
  ⟨((loggerStep_rotation [112] (some 2) [] ⟨1, []⟩ ⟨none, 0, 0, 0⟩ rfl).2.1 2 rfl).1,
   ((loggerStep_rotation [112] none [] ⟨1, []⟩ ⟨none, 0, 0, 0⟩ rfl).2.2 rfl).1⟩

/-! ### C8: error-log flush -/

/-- C8: with an error-log path configured, each submitted message causes
one open-write-close cycle writing the timestamp, a space, and the raw
message; a failed open drops exactly that message and reports a Problem
(not a Fatal), and the loop goes on to process the remaining messages
either way. -/
theorem errlogStep_flush (errorLog : List Nat) (openResult : Option Nat)
    (now msg : List Nat) (rest : List (Option Nat × List Nat × List Nat))
    (hcfg : errorLog ≠ []) :
    (∀ w, openResult = some w →
      errlogStep errorLog openResult now msg =
        ([.openA w, .writeA w (now ++ sp ++ msg), .closeA w], [])) ∧
    (openResult = none →
      errlogStep errorLog openResult now msg = ([], [.problemOpenFail errorLog])) ∧
    errlogRun errorLog ((openResult, now, msg) :: rest) =
      ((errlogStep errorLog openResult now msg).1 ++ (errlogRun errorLog rest).1,
       (errlogStep errorLog openResult now msg).2 ++ (errlogRun errorLog rest).2) := by
  refine ⟨?_, ?_, rfl⟩
  · intro w hw
    simp [errlogStep, hcfg, hw]
  · intro hn
    simp [errlogStep, hcfg, hn]

/-- C8 witness: a successful flush of message byte `109` at timestamp
byte `116`, and a failed open dropping it with a Problem. -/
theorem errlogStep_flush_witness :
    errlogStep [101] (some 3) [116] [109] =
      ([.openA 3, .writeA 3 ([116] ++ sp ++ [109]), .closeA 3], []) ∧
    errlogStep [101] none [116] [109] = ([], [.problemOpenFail [101]]) :=
  ⟨(errlogStep_flush [101] (some 3) [116] [109] [] (by decide)).1 3 rfl,
   (errlogStep_flush [101] none [116] [109] [] (by decide)).2.1 rfl⟩

/-! ### C9: shutdown with unconfigured writers -/

/-- C9 (code bug): with both log paths empty — a configuration the
sources document as supported ("leave empty for none") — `Serve` never
creates either channel, and `Shutdown` then executes `close(s.logch)` on
a nil channel: a runtime panic, not a graceful completion. With both
paths configured the same `Shutdown` completes normally. -/
theorem shutdown_nil_channel_panic :
    (serveChans [] []).logch = none ∧
    (serveChans [] []).errch = none ∧
    Shutdown (serveChans [] []) = .error .closeOfNilChannel ∧
    Shutdown (serveChans [97] [98]) = .ok () :=
  ⟨rfl, rfl, rfl, rfl⟩

/-! ### C10: the transport diagnostic write hook -/

/-- C10: `Server.Error` (and `engWrite.Write`, which delegates to it)
returns `(len(b), nil)` whenever it completes — never an error; with no
error log configured (nil channel) the message is silently discarded;
with a full queue the call blocks rather than failing or dropping, and
once there is room it enqueues the message. -/
theorem Error_never_fails (errch : Option (List (List Nat))) (b : List Nat) :
    (∀ r e q', Error errch b = .done r e q' → r = b.length ∧ e = none) ∧
    (errch = none → Error errch b = .done b.length none none) ∧
    (∀ q, errch = some q → logQueueSize ≤ q.length → Error errch b = .blocked) ∧
    (∀ q, errch = some q → q.length < logQueueSize →
      Error errch b = .done b.length none (some (q ++ [b]))) ∧
    engWrite errch b = Error errch b := by
  refine ⟨?_, ?_, ?_, ?_, rfl⟩
  · intro r e q' hdone
    cases errch with
    | none =>
      simp only [Error, CallOut.done.injEq] at hdone
      exact ⟨hdone.1.symm, hdone.2.1.symm⟩
    | some q =>
      by_cases hq : q.length < logQueueSize
      · simp only [Error, hq, if_true, CallOut.done.injEq] at hdone
        exact ⟨hdone.1.symm, hdone.2.1.symm⟩
      · simp [Error, hq] at hdone
  · intro h
    subst h
    rfl
  · intro q hq hfull
    subst hq
    simp [Error, Nat.not_lt.mpr hfull]
  · intro q hq hroom
    subst hq
    simp [Error, hroom]

/-- C10 witness: a nil channel discards, a queue with room enqueues, and
a full queue of 1000 pending strings blocks; the return is always
`(len(b), nil)`. -/
theorem Error_never_fails_witness :
    Error none [7, 8] = .done 2 none none ∧
    Error (some []) [7, 8] = .done 2 none (some [[7, 8]]) ∧
    Error (some (List.replicate logQueueSize [])) [7, 8] = .blocked :=
  ⟨(Error_never_fails none [7, 8]).2.1 rfl,
   (Error_never_fails (some []) [7, 8]).2.2.2.1 [] rfl (by decide),
   (Error_never_fails (some (List.replicate logQueueSize [])) [7, 8]).2.2.1 _ rfl (by simp)⟩

end Enginz
